import Mathlib

/-!
Shallow embedding of the hx711-multi driver (src/hx711_multi/adc.py and
src/hx711_multi/hx711.py) and verification of the frozen claims about it.

Modelling conventions:
* Python ints are `Nat` (raw 24-bit accumulators) or `Int` (signed reads).
* Python floats are modelled as `ℚ`.  The source only ever compares the
  standard deviation (`statistics.stdev`, a square root) against the
  constants 100 and 0, and compares each `deviation / stdev` ratio against
  2.0.  Deviations are absolute values (nonnegative) and stdev is
  nonnegative, so every such comparison is equivalent to the comparison of
  squares; the embedding therefore stores the *squared* stdev
  (`read_stdev_sq`, the sample variance, an exact rational) and the squared
  ratios, and compares against 100² and 2².
* GPIO is an external collaborator: line levels are supplied by an
  environment of functions keyed by the data pin and by when the read
  happens (poll iteration / bit index / pulse index).
-/

/-- State of one `ADC` object (adc.py, `ADC.__init__`, lines 45-66). -/
structure ADCState where
  dout_pin : ℕ
  zero_offset : ℚ
  weight_multiple : ℚ
  ready : Bool
  current_raw_read : ℕ
  raw_reads : List ℕ
  reads : List (Option ℤ)
  reads_filtered : List ℤ
  read_med : Option ℚ
  devs_from_med : List ℚ
  read_stdev_sq : ℚ
  ratios_to_stdev_sq : List ℚ
  measurement : Option ℚ
  measurement_from_zero : Option ℚ
  weight : Option ℚ
deriving DecidableEq, Repr

/-- `ADC.__init__` (adc.py lines 45-66): fresh per-device state. -/
def ADC_init (dout_pin : ℕ) : ADCState :=
  { dout_pin := dout_pin
    zero_offset := 0
    weight_multiple := 1
    ready := false
    current_raw_read := 0
    raw_reads := []
    reads := []
    reads_filtered := []
    read_med := Option.none
    devs_from_med := []
    read_stdev_sq := 0
    ratios_to_stdev_sq := []
    measurement := Option.none
    measurement_from_zero := Option.none
    weight := Option.none }

/-- `ADC._max_stdev` (adc.py line 57). -/
def max_stdev : ℚ := 100

/-- `ADC._max_number_of_stdev_from_med` (adc.py line 59). -/
def max_number_of_stdev_from_med : ℚ := 2

/-- `ADC._init_raw_read` (adc.py lines 104-107). -/
def init_raw_read (s : ADCState) : ADCState :=
  { s with ready := false, current_raw_read := 0 }

/-- `ADC._init_set_of_reads` (adc.py lines 90-102).  The source deliberately
does *not* clear `weight` (the assignment is commented out) and ends by
calling `_init_raw_read`. -/
def init_set_of_reads (s : ADCState) : ADCState :=
  init_raw_read
    { s with raw_reads := [], reads := [], reads_filtered := [],
             read_med := Option.none, devs_from_med := [],
             read_stdev_sq := 0, ratios_to_stdev_sq := [],
             measurement := Option.none,
             measurement_from_zero := Option.none }

/-- `ADC._is_ready` (adc.py lines 109-115): if already ready, nothing is
read from GPIO; otherwise the device becomes ready exactly when its data
line reads 0.  The bool the source returns equals the updated `_ready`. -/
def is_ready_update (s : ADCState) (input : ℕ) : ADCState :=
  if s.ready then s else { s with ready := decide (input = 0) }

/-- `ADC._shift_and_read` (adc.py lines 117-120). -/
def shift_and_read (s : ADCState) (input : ℕ) : ADCState :=
  { s with current_raw_read := s.current_raw_read <<< 1 ||| input }

/-- `ADC.convert_to_signed_value` (adc.py lines 133-147). -/
def convert_to_signed_value (raw_value : ℕ) : Option ℤ :=
  if raw_value = 0x800000 ∨ raw_value = 0x7FFFFF ∨ raw_value = 0xFFFFFF then
    Option.none
  else if raw_value &&& 0x800000 ≠ 0 then
    some (-(((raw_value ^^^ 0xFFFFFF : ℕ) : ℤ) + 1))
  else
    some (raw_value : ℤ)

/-- `ADC._finish_raw_read` (adc.py lines 122-131). -/
def finish_raw_read (s : ADCState) : ADCState :=
  { s with raw_reads := s.raw_reads ++ [s.current_raw_read],
           reads := s.reads ++ [convert_to_signed_value s.current_raw_read] }

/-- The filter `[r for r in self.reads if ((r is not None) and (type(r) is
int))]` (adc.py lines 162-163): every entry of `reads` is `None` or an int,
so this keeps exactly the present values. -/
def filter_valid_reads (reads : List (Option ℤ)) : List ℤ :=
  reads.filterMap id

/-- Python `statistics.median` on a list of ints: sort ascending, take the
middle element (odd length) or the average of the two middle elements
(even length). -/
def pymedian (l : List ℤ) : ℚ :=
  let sorted := l.insertionSort (fun a b => a ≤ b)
  let n := l.length
  if n % 2 = 1 then ((sorted.getD (n / 2) 0 : ℤ) : ℚ)
  else (((sorted.getD (n / 2 - 1) 0 : ℤ) : ℚ) + ((sorted.getD (n / 2) 0 : ℤ) : ℚ)) / 2

/-- Python `statistics.mean` (exact on rationals). -/
def mean_q (l : List ℚ) : ℚ := l.sum / (l.length : ℚ)

/-- Sample variance, i.e. the square of Python `statistics.stdev`
(denominator `n - 1`; `statistics` computes it exactly on rationals). -/
def sample_var (l : List ℚ) : ℚ :=
  (l.map (fun x => (x - mean_q l) ^ 2)).sum / ((l.length : ℚ) - 1)

/-- `self._devs_from_med` (adc.py lines 172-174): absolute deviations of
the filtered reads from their median. -/
def devs_from_med_of (l : List ℤ) : List ℚ :=
  l.map (fun r => |((r : ℚ)) - pymedian l|)

/-- The tail of `ADC._calculate_measurement` (adc.py lines 191-205): the
zip of the current `_reads_filtered` with `_ratios_to_stdev`, keeping a
read iff its ratio is at most `_max_number_of_stdev_from_med` (2.0, i.e.
squared ratio ≤ 2²), followed by the mean/offset/weight computation.  Note
the `stdev > max` branch reaches this code with whatever `_ratios_to_stdev`
was left in the state (normally `[]` from `_init_set_of_reads`). -/
def apply_ratio_filter (s : ADCState) : Bool × ADCState :=
  let newFiltered : List ℤ :=
    (s.reads_filtered.zip s.ratios_to_stdev_sq).filterMap
      (fun p => if p.2 ≤ max_number_of_stdev_from_med ^ 2 then some p.1 else Option.none)
  let s1 := { s with reads_filtered := newFiltered }
  if newFiltered.isEmpty then (false, s1)
  else
    let m : ℚ := mean_q (newFiltered.map (fun r => (r : ℚ)))
    (true,
      { s1 with
          measurement := some m
          measurement_from_zero := some (m - s1.zero_offset)
          weight := some ((m - s1.zero_offset) / s1.weight_multiple) })

/-- `ADC._calculate_measurement`, statistics branch (adc.py lines 171-205),
reached when at least two valid reads survive the validity filter.
`self._read_stdev > self._max_stdev` is `var > 100²`, the truthiness test
`elif self._read_stdev:` is `var ≠ 0`. -/
def calc_stats (s : ADCState) (filtered : List ℤ) : Bool × ADCState :=
  let med := pymedian filtered
  let devs := devs_from_med_of filtered
  let varq := sample_var devs
  let s1 :=
    { s with
        reads_filtered := filtered
        read_med := some med
        devs_from_med := devs
        read_stdev_sq := varq }
  if max_stdev ^ 2 < varq then
    apply_ratio_filter { s1 with ready := false }
  else if varq ≠ 0 then
    apply_ratio_filter { s1 with ratios_to_stdev_sq := devs.map (fun d => d ^ 2 / varq) }
  else
    (true, { s1 with measurement := some med })

/-- `ADC._calculate_measurement` (adc.py lines 149-205). -/
def calculate_measurement (s : ADCState) : Bool × ADCState :=
  match filter_valid_reads s.reads with
  | [] => (false, { s with reads_filtered := [] })
  | [r] => (true, { s with reads_filtered := [r], measurement := some ((r : ℚ)) })
  | r1 :: r2 :: rest => calc_stats s (r1 :: r2 :: rest)

/-- The GPIO collaborator (hx711.py reads `GPIO.input`, writes SCK).  Line
levels are functions of the data pin and of when the read happens:
`pollBit pin i` is the level during readiness-poll iteration `i`
(`_prepare_to_read`), `dataBit pin k` the level when bit `k` is sampled
(the 24-bit loop of `_read`), and `pulseOk j` whether the `j`-th SCK pulse of
the cycle stayed under the 60 µs budget (`_pulse_sck_high`). -/
structure HXEnv where
  pollBit : ℕ → ℕ → ℕ
  dataBit : ℕ → ℕ → ℕ
  pulseOk : ℕ → Bool

/-- State of the `HX711` controller (hx711.py, `__init__`). -/
structure HXState where
  sck_pin : ℕ
  channel_A_gain : ℕ
  channel_select : Char
  all_or_nothing : Bool
  single_adc : Bool
  adcs : List ADCState

/-- One iteration of the readiness loop body (hx711.py line 144): the list
comprehension `[adc._is_ready() for adc in self._adcs]` polls every ADC. -/
def poll_once (env : HXEnv) (i : ℕ) (adcs : List ADCState) : List ADCState :=
  adcs.map (fun a => is_ready_update a (env.pollBit a.dout_pin i))

/-- The `for i in range(20)` loop of `_prepare_to_read` (hx711.py lines
142-148), returning the number of iterations executed (poll attempts) and
the updated ADC states.  `i` is the 0-based iteration counter, `fuel` the
remaining iterations. -/
def prepare_poll (env : HXEnv) : ℕ → ℕ → List ADCState → ℕ × List ADCState
  | i, 0, adcs => (i, adcs)
  | i, fuel + 1, adcs =>
    let adcs1 := poll_once env i adcs
    if adcs1.all (fun a => a.ready) then (i + 1, adcs1)
    else prepare_poll env (i + 1) fuel adcs1

/-- `HX711._prepare_to_read` (hx711.py lines 130-156): poll up to 20 times,
then report `all([adc._ready for adc in self._adcs])`.  Returns (ready,
poll attempts, ADC states). -/
def prepare_to_read (env : HXEnv) (adcs : List ADCState) : Bool × ℕ × List ADCState :=
  let r := prepare_poll env 0 20 adcs
  (r.2.all (fun a => a.ready), r.1, r.2)

/-- The inner `for adc in self._adcs: if adc._ready: adc._shift_and_read()`
of `_read` (hx711.py lines 233-235) for bit `k`. -/
def shift_all (env : HXEnv) (k : ℕ) (adcs : List ADCState) : List ADCState :=
  adcs.map (fun a => if a.ready then shift_and_read a (env.dataBit a.dout_pin k) else a)

/-- The `for _ in range(24)` loop of `_read` (hx711.py lines 229-235):
pulse SCK (counting the pulse), abort the cycle if the pulse overran,
otherwise shift the bit into every ready ADC.  Returns (ok, pulses so far,
ADC states). -/
def read_bits_loop (env : HXEnv) : ℕ → ℕ → ℕ → List ADCState → Bool × ℕ × List ADCState
  | _, 0, pulses, adcs => (true, pulses, adcs)
  | k, fuel + 1, pulses, adcs =>
    if env.pulseOk pulses then
      read_bits_loop env (k + 1) fuel (pulses + 1) (shift_all env k adcs)
    else (false, pulses + 1, adcs)

/-- Number of extra SCK pulses in `_write_channel_gain` (hx711.py lines
192-197): default 2 (channel B), 1 for (A, 128), 3 for (A, 64). -/
def num_pulses (channel_select : Char) (channel_A_gain : ℕ) : ℕ :=
  if channel_select = 'A' ∧ channel_A_gain = 128 then 1
  else if channel_select = 'A' ∧ channel_A_gain = 64 then 3
  else 2

/-- The pulse loop of `_write_channel_gain` (hx711.py lines 199-203),
continuing the pulse count of the cycle. -/
def write_gain_loop (env : HXEnv) : ℕ → ℕ → Bool × ℕ
  | 0, pulses => (true, pulses)
  | fuel + 1, pulses =>
    if env.pulseOk pulses then write_gain_loop env fuel (pulses + 1)
    else (false, pulses + 1)

/-- `HX711._read` (hx711.py lines 205-245): init the raw read of every ADC,
readiness gate (`if not self._prepare_to_read() and self._all_or_nothing:
return False`), 24-bit shift loop, per-ready-ADC `_finish_raw_read`, then
`_write_channel_gain`.  Returns (success, poll attempts, SCK pulses issued,
controller state). -/
def hx_read (env : HXEnv) (hx : HXState) : Bool × ℕ × ℕ × HXState :=
  let adcs0 := hx.adcs.map init_raw_read
  let p := prepare_to_read env adcs0
  if !p.1 && hx.all_or_nothing then (false, p.2.1, 0, { hx with adcs := p.2.2 })
  else
    let rb := read_bits_loop env 0 24 0 p.2.2
    if !rb.1 then (false, p.2.1, rb.2.1, { hx with adcs := rb.2.2 })
    else
      let adcs3 := rb.2.2.map (fun a => if a.ready then finish_raw_read a else a)
      let wg := write_gain_loop env (num_pulses hx.channel_select hx.channel_A_gain) rb.2.1
      (wg.1, p.2.1, wg.2, { hx with adcs := adcs3 })

/-- The list `adc_measurements = [adc.measurement_from_zero for adc in
self._adcs]` collected at the end of `read_raw` (hx711.py line 278). -/
def read_raw_measurements (adcs : List ADCState) : List (Option ℚ) :=
  adcs.map (fun a => a.measurement_from_zero)

/-- A Python value as seen by `zero()`: `None`, a float, or a list of
per-device results (what `read_raw` returns: a scalar when a single dout
pin was configured, else a list). -/
inductive PyVal where
  | none : PyVal
  | scalar : ℚ → PyVal
  | list : List (Option ℚ) → PyVal
deriving DecidableEq, Repr

/-- The return statement of `read_raw` (hx711.py lines 285-289):
`adc_measurements[0]` when `self._single_adc`, else the list.  (With zero
configured ADCs and `single_adc` the source would raise IndexError; that
state is unreachable — a single int dout pin yields exactly one ADC.) -/
def read_raw_return (single : Bool) (ms : List (Option ℚ)) : PyVal :=
  if single then
    match ms with
    | [] => PyVal.none
    | Option.none :: _ => PyVal.none
    | some q :: _ => PyVal.scalar q
  else PyVal.list ms

/-- Python `x is None`. -/
def pyIsNone : PyVal → Bool
  | PyVal.none => true
  | _ => false

/-- Python `None in x`: defined for lists, a TypeError (modelled as
`Except.error`) when `x` is `None` or a float — neither is iterable. -/
def pyNoneIn : PyVal → Except Unit Bool
  | PyVal.list l => Except.ok (l.contains Option.none)
  | _ => Except.error ()

/-- The merge expression of `zero()` (hx711.py lines 354-355):
`[r_new if r_new is not None else r_old for r_new, r_old in
zip(readings_new, readings)]`. -/
def mergeReadings (readings_new readings_old : List (Option ℚ)) : List (Option ℚ) :=
  (readings_new.zip readings_old).map (fun p => if p.1.isSome then p.1 else p.2)

/-- `zip(readings_new, readings)` wrapped in the merge: a TypeError when
either argument is not a list (zip of a non-iterable). -/
def pyMerge : PyVal → PyVal → Except Unit PyVal
  | PyVal.list ln, PyVal.list lo => Except.ok (PyVal.list (mergeReadings ln lo))
  | _, _ => Except.error ()

/-- Outcome of a `zero()` call: normal return, the explicit
`Exception` raised for failed zeroing, or an uncaught TypeError. -/
inductive ZeroOutcome where
  | ok : ZeroOutcome
  | zeroFailed : ZeroOutcome
  | typeError : ZeroOutcome
deriving DecidableEq, Repr

/-- The retry loop of `HX711.zero` (hx711.py lines 350-361).  `batches n`
is what the `n`-th `read_raw` call returns; `readings` is the loop
variable (initially Python `None`).  After a `break` (no `None` in the
merged readings) the post-loop `if None in readings` re-check cannot fire,
so the model returns `ok` directly; when the loop exhausts `retry_limit`
the post-loop check raises on a remaining `None` (or a TypeError if
`readings` is not a list). -/
def zero_loop (batches : ℕ → PyVal) : ℕ → PyVal → ℕ → ZeroOutcome
  | _, readings, 0 =>
    match pyNoneIn readings with
    | Except.error _ => ZeroOutcome.typeError
    | Except.ok true => ZeroOutcome.zeroFailed
    | Except.ok false => ZeroOutcome.ok
  | n, readings, fuel + 1 =>
    match (if pyIsNone readings then Except.ok (batches n) else pyMerge (batches n) readings) with
    | Except.error _ => ZeroOutcome.typeError
    | Except.ok readingsNew =>
      match pyNoneIn readingsNew with
      | Except.error _ => ZeroOutcome.typeError
      | Except.ok false => ZeroOutcome.ok
      | Except.ok true => zero_loop batches (n + 1) readingsNew fuel

/-- `HX711.zero` (hx711.py lines 346-361) up to the point where the merged
readings are known good (the subsequent per-ADC zeroing cannot fail
there). -/
def zero_model (batches : ℕ → PyVal) (retry_limit : ℕ) : ZeroOutcome :=
  zero_loop batches 0 PyVal.none retry_limit

/-- `_calculate_measurement` with at least two valid reads dispatches to
the statistics branch. -/
theorem calculate_measurement_cons2 (s : ADCState) (a b : ℤ) (t : List ℤ)
    (hf : filter_valid_reads s.reads = a :: b :: t) :
    calculate_measurement s = calc_stats s (a :: b :: t) := by
  unfold calculate_measurement
  rw [hf]

/-- `_calculate_measurement` with exactly one valid read: that read is the
measurement and nothing else changes. -/
theorem calculate_measurement_single (s : ADCState) (r : ℤ)
    (hf : filter_valid_reads s.reads = [r]) :
    calculate_measurement s =
      (true, { s with reads_filtered := [r], measurement := some ((r : ℚ)) }) := by
  unfold calculate_measurement
  rw [hf]

/-- The `stdev > max_stdev` branch (adc.py lines 178-183): the device is
marked not ready and, with the stale `_ratios_to_stdev` left at `[]` by
`_init_set_of_reads`, the zip filter empties `_reads_filtered`, so the
call returns False and leaves `measurement` untouched. -/
theorem calc_stats_var_gt (s : ADCState) (filtered : List ℤ)
    (hratios : s.ratios_to_stdev_sq = [])
    (hvar : max_stdev ^ 2 < sample_var (devs_from_med_of filtered)) :
    (calc_stats s filtered).1 = false ∧
    (calc_stats s filtered).2.ready = false ∧
    (calc_stats s filtered).2.measurement = s.measurement ∧
    (calc_stats s filtered).2.measurement_from_zero = s.measurement_from_zero := by
  simp only [calc_stats]
  rw [if_pos hvar]
  simp [apply_ratio_filter, hratios]

/-- The `stdev == 0` branch (adc.py lines 187-190): measurement is the
median and the function returns early, touching nothing else. -/
theorem calc_stats_var_zero (s : ADCState) (filtered : List ℤ)
    (hvar : sample_var (devs_from_med_of filtered) = 0) :
    (calc_stats s filtered).1 = true ∧
    (calc_stats s filtered).2.measurement = some (pymedian filtered) ∧
    (calc_stats s filtered).2.measurement_from_zero = s.measurement_from_zero ∧
    (calc_stats s filtered).2.weight = s.weight ∧
    (calc_stats s filtered).2.reads_filtered = filtered ∧
    (calc_stats s filtered).2.ready = s.ready := by
  simp only [calc_stats]
  rw [hvar]
  rw [if_neg (by norm_num [max_stdev]), if_neg (by simp)]
  simp

/-- The nonzero-stdev branch (adc.py lines 184-186): ratios are computed
and control falls into the zip filter. -/
theorem calc_stats_ratio_branch (s : ADCState) (filtered : List ℤ)
    (hv1 : ¬ max_stdev ^ 2 < sample_var (devs_from_med_of filtered))
    (hv2 : sample_var (devs_from_med_of filtered) ≠ 0) :
    calc_stats s filtered =
      apply_ratio_filter
        { s with reads_filtered := filtered,
                 read_med := some (pymedian filtered),
                 devs_from_med := devs_from_med_of filtered,
                 read_stdev_sq := sample_var (devs_from_med_of filtered),
                 ratios_to_stdev_sq :=
                   (devs_from_med_of filtered).map
                     (fun d => d ^ 2 / sample_var (devs_from_med_of filtered)) } := by
  simp only [calc_stats]
  rw [if_neg hv1, if_pos hv2]

/-- Concrete ADC state holding the batch of signed reads [10, 12, 1000]
(the state `read_raw` reaches after `_init_set_of_reads` and three
successful cycles with those conversions). -/
def batch_10_12_1000 : ADCState :=
  { ADC_init 5 with reads := [some 10, some 12, some 1000] }

theorem batch1_filter : filter_valid_reads batch_10_12_1000.reads = [10, 12, 1000] := by
  decide

theorem batch1_var :
    sample_var (devs_from_med_of [10, 12, 1000]) = 324724 := by
  have hmed : pymedian [10, 12, 1000] = 12 := by
    norm_num [pymedian, List.insertionSort, List.orderedInsert]
  have hdevs : devs_from_med_of [10, 12, 1000] = [2, 0, 988] := by
    norm_num [devs_from_med_of, hmed]
  rw [hdevs]
  norm_num [sample_var, mean_q]

/-- C1 (counterexample): on the batch [10, 12, 1000] aggregation does
*not* succeed with measurement 11 — `_calculate_measurement` returns
False and the measurement is not 11 (it is never set). -/
theorem c1_counterexample :
    (calculate_measurement batch_10_12_1000).1 = false ∧
    (calculate_measurement batch_10_12_1000).2.measurement ≠ some 11 := by
  rw [calculate_measurement_cons2 batch_10_12_1000 10 12 [1000] batch1_filter]
  obtain ⟨h1, _, h3, _⟩ :=
    calc_stats_var_gt batch_10_12_1000 [10, 12, 1000] rfl
      (by rw [batch1_var]; norm_num [max_stdev])
  refine ⟨h1, ?_⟩
  rw [h3]
  simp [batch_10_12_1000, ADC_init]

/-- C1 (amended): for the batch [10, 12, 1000] the sample standard
deviation of the absolute deviations from the median exceeds the ceiling
100 (its square, 324724, exceeds 100²), so aggregation marks the device
not ready and fails: it returns False and leaves the measurement absent;
the mean 11 is never produced. -/
theorem c1_amended :
    (calculate_measurement batch_10_12_1000).1 = false ∧
    (calculate_measurement batch_10_12_1000).2.ready = false ∧
    (calculate_measurement batch_10_12_1000).2.measurement = Option.none ∧
    max_stdev ^ 2 <
      sample_var (devs_from_med_of (filter_valid_reads batch_10_12_1000.reads)) := by
  have hvar : max_stdev ^ 2 < sample_var (devs_from_med_of [10, 12, 1000]) := by
    rw [batch1_var]; norm_num [max_stdev]
  rw [calculate_measurement_cons2 batch_10_12_1000 10 12 [1000] batch1_filter]
  obtain ⟨h1, h2, h3, _⟩ :=
    calc_stats_var_gt batch_10_12_1000 [10, 12, 1000] rfl hvar
  refine ⟨h1, h2, ?_, ?_⟩
  · rw [h3]; rfl
  · rw [batch1_filter]; exact hvar

/-- C2: for every 24-bit raw value, `convert_to_signed_value` returns
`None` exactly on the three reserved codes, and otherwise decodes twos-complement: if bit 23 is set the result is −((v XOR 0xFFFFFF) + 1), else
the value itself. -/
theorem c2_convert_to_signed_value_law (v : ℕ) (hv : v < 2 ^ 24) :
    (convert_to_signed_value v = Option.none ↔
      (v = 0x800000 ∨ v = 0x7FFFFF ∨ v = 0xFFFFFF)) ∧
    (¬(v = 0x800000 ∨ v = 0x7FFFFF ∨ v = 0xFFFFFF) →
      convert_to_signed_value v =
        some (if v.testBit 23 then -(((v ^^^ 0xFFFFFF : ℕ) : ℤ) + 1) else (v : ℤ))) := by
  have hbit : (v &&& 0x800000 ≠ 0) ↔ v.testBit 23 = true := by
    have h23 : (0x800000 : ℕ) = 2 ^ 23 := by norm_num
    rw [h23, Nat.and_two_pow]
    cases hb : v.testBit 23 <;> simp [hb]
  constructor
  · unfold convert_to_signed_value
    by_cases h : v = 0x800000 ∨ v = 0x7FFFFF ∨ v = 0xFFFFFF
    · simp [h]
    · rw [if_neg h]
      constructor
      · intro hc
        by_cases hb : v &&& 0x800000 ≠ 0
        · rw [if_pos hb] at hc; exact absurd hc (by simp)
        · rw [if_neg hb] at hc; exact absurd hc (by simp)
      · intro hc; exact absurd hc h
  · intro h
    unfold convert_to_signed_value
    rw [if_neg h]
    by_cases hb : v.testBit 23 = true
    · rw [if_pos (hbit.mpr hb), if_pos hb]
    · rw [if_neg (fun hc => hb (hbit.mp hc)), if_neg hb]

/-- C2 witness: the law evaluated at the example value 0xFFFFFE, which
decodes to −2. -/
theorem c2_witness :
    0xFFFFFE < 2 ^ 24 ∧
    ((convert_to_signed_value 0xFFFFFE = Option.none ↔
      (0xFFFFFE = 0x800000 ∨ 0xFFFFFE = 0x7FFFFF ∨ 0xFFFFFE = 0xFFFFFF)) ∧
    (¬((0xFFFFFE : ℕ) = 0x800000 ∨ (0xFFFFFE : ℕ) = 0x7FFFFF ∨ (0xFFFFFE : ℕ) = 0xFFFFFF) →
      convert_to_signed_value 0xFFFFFE =
        some (if Nat.testBit 0xFFFFFE 23 then -(((0xFFFFFE ^^^ 0xFFFFFF : ℕ) : ℤ) + 1)
              else ((0xFFFFFE : ℕ) : ℤ)))) :=
  ⟨by decide, c2_convert_to_signed_value_law 0xFFFFFE (by decide)⟩

/-- C5: the merge in `zero()` combines a new batch with the accumulated
readings pointwise: at every index the merged entry is the new one when it
is present and the old one otherwise — so a later `None` never overwrites
an earlier success, and a later success replaces an earlier `None`. -/
theorem c5_zero_merge (rn ro : List (Option ℚ)) (i : ℕ) (a b : Option ℚ)
    (hn : rn[i]? = some a) (ho : ro[i]? = some b) :
    (mergeReadings rn ro)[i]? = some (if a.isSome then a else b) := by
  induction rn generalizing ro i with
  | nil => simp at hn
  | cons x xs ih =>
    cases ro with
    | nil => simp at ho
    | cons y ys =>
      cases i with
      | zero =>
        simp only [List.getElem?_cons_zero, Option.some.injEq] at hn ho
        subst hn; subst ho
        simp [mergeReadings]
      | succ j =>
        simp only [List.getElem?_cons_succ] at hn ho
        simpa [mergeReadings] using ih ys j hn ho

/-- C5 witness: successive batches [None, 5] then [3, None] merge to
[3, 5]; index 1 is the application of the merge law (the later None does
not overwrite the earlier 5). -/
theorem c5_witness :
    mergeReadings [some 3, Option.none] [Option.none, some 5] = [some 3, some 5] ∧
    (mergeReadings [some 3, Option.none] [Option.none, some 5])[1]? =
      some (if (Option.none : Option ℚ).isSome then (Option.none : Option ℚ) else some 5) :=
  ⟨by decide,
   c5_zero_merge [some 3, Option.none] [Option.none, some 5] 1 Option.none (some 5)
     (by decide) (by decide)⟩

/-- C8: the per-batch reset `_init_set_of_reads` clears the batch history
and measurement fields and resets for the next cycle, while preserving
`zero_offset`, `weight_multiple` (and also `weight` and the pin) for every
device state. -/
theorem c8_init_set_of_reads_frame (s : ADCState) :
    (init_set_of_reads s).raw_reads = [] ∧
    (init_set_of_reads s).reads = [] ∧
    (init_set_of_reads s).reads_filtered = [] ∧
    (init_set_of_reads s).read_med = Option.none ∧
    (init_set_of_reads s).devs_from_med = [] ∧
    (init_set_of_reads s).read_stdev_sq = 0 ∧
    (init_set_of_reads s).ratios_to_stdev_sq = [] ∧
    (init_set_of_reads s).measurement = Option.none ∧
    (init_set_of_reads s).measurement_from_zero = Option.none ∧
    (init_set_of_reads s).ready = false ∧
    (init_set_of_reads s).current_raw_read = 0 ∧
    (init_set_of_reads s).zero_offset = s.zero_offset ∧
    (init_set_of_reads s).weight_multiple = s.weight_multiple ∧
    (init_set_of_reads s).dout_pin = s.dout_pin ∧
    (init_set_of_reads s).weight = s.weight := by
  refine ⟨rfl, rfl, rfl, rfl, rfl, rfl, rfl, rfl, rfl, rfl, rfl, rfl, rfl, rfl, rfl⟩

/-- C6: a batch with at least two valid signed reads whose deviation
standard deviation exceeds 100 (squared: variance over 100²) makes
aggregation mark the device not ready and fail with no measurement.
`_ratios_to_stdev = []` and `measurement = None` are the values
`_init_set_of_reads` established at batch start (the only state in which
`read_raw` invokes `_calculate_measurement`). -/
theorem c6_large_stdev_fails (s : ADCState) (a b : ℤ) (t : List ℤ)
    (hf : filter_valid_reads s.reads = a :: b :: t)
    (hratios : s.ratios_to_stdev_sq = [])
    (hmeas : s.measurement = Option.none)
    (hvar : max_stdev ^ 2 < sample_var (devs_from_med_of (a :: b :: t))) :
    (calculate_measurement s).1 = false ∧
    (calculate_measurement s).2.ready = false ∧
    (calculate_measurement s).2.measurement = Option.none := by
  rw [calculate_measurement_cons2 s a b t hf]
  obtain ⟨h1, h2, h3, _⟩ := calc_stats_var_gt s (a :: b :: t) hratios hvar
  exact ⟨h1, h2, by rw [h3, hmeas]⟩

/-- Batch [0, 0, 300]: deviations from the median 0 are [0, 0, 300], whose
sample variance 30000 exceeds 100². -/
def batch_0_0_300 : ADCState :=
  { ADC_init 5 with reads := [some 0, some 0, some 300] }

theorem batch300_var_gt :
    max_stdev ^ 2 < sample_var (devs_from_med_of ((0 : ℤ) :: 0 :: [300])) := by
  have hmed : pymedian [0, 0, 300] = 0 := by
    norm_num [pymedian, List.insertionSort, List.orderedInsert]
  have hdevs : devs_from_med_of [0, 0, 300] = [0, 0, 300] := by
    norm_num [devs_from_med_of, hmed]
  rw [hdevs]
  norm_num [sample_var, mean_q, max_stdev]

/-- C6 witness: the law applied to the batch [0, 0, 300]. -/
theorem c6_witness :
    (calculate_measurement batch_0_0_300).1 = false ∧
    (calculate_measurement batch_0_0_300).2.ready = false ∧
    (calculate_measurement batch_0_0_300).2.measurement = Option.none :=
  c6_large_stdev_fails batch_0_0_300 0 0 [300] (by decide) rfl rfl batch300_var_gt

/-- C9: on the single-valid-value path and on the zero-stdev path,
aggregation returns True and sets `measurement`, but leaves
`measurement_from_zero` and `weight` at their batch-reset values (absent),
so the entry `read_raw` would return for this device
(`measurement_from_zero`) is still `None` despite the reported success. -/
theorem c9_success_without_from_zero (s : ADCState)
    (hm : s.measurement_from_zero = Option.none) (hw : s.weight = Option.none)
    (hpath : (∃ r, filter_valid_reads s.reads = [r]) ∨
             (∃ a b t, filter_valid_reads s.reads = a :: b :: t ∧
                sample_var (devs_from_med_of (a :: b :: t)) = 0)) :
    (calculate_measurement s).1 = true ∧
    ((calculate_measurement s).2.measurement).isSome = true ∧
    (calculate_measurement s).2.measurement_from_zero = Option.none ∧
    (calculate_measurement s).2.weight = Option.none ∧
    read_raw_measurements [(calculate_measurement s).2] = [Option.none] := by
  rcases hpath with ⟨r, hf⟩ | ⟨a, b, t, hf, hvar⟩
  · rw [calculate_measurement_single s r hf]
    exact ⟨rfl, rfl, hm, hw, by simp [read_raw_measurements, hm]⟩
  · rw [calculate_measurement_cons2 s a b t hf]
    obtain ⟨h1, h2, h3, h4, _, _⟩ := calc_stats_var_zero s (a :: b :: t) hvar
    refine ⟨h1, ?_, ?_, ?_, ?_⟩
    · rw [h2]; rfl
    · rw [h3, hm]
    · rw [h4, hw]
    · simp [read_raw_measurements, h3, hm]

/-- Batch with the single valid read 42. -/
def batch_42 : ADCState :=
  { ADC_init 7 with reads := [some 42] }

/-- C9 witness: the law applied to the single-valid-value batch [42]. -/
theorem c9_witness :
    (calculate_measurement batch_42).1 = true ∧
    ((calculate_measurement batch_42).2.measurement).isSome = true ∧
    (calculate_measurement batch_42).2.measurement_from_zero = Option.none ∧
    (calculate_measurement batch_42).2.weight = Option.none ∧
    read_raw_measurements [(calculate_measurement batch_42).2] = [Option.none] :=
  c9_success_without_from_zero batch_42 rfl rfl (Or.inl ⟨42, by decide⟩)

/-- Rerunning aggregation on a surviving filtered set: a fresh batch whose
reads are exactly those survivors (all present). -/
def rerun_on_filtered (t : ADCState) (vals : List ℤ) : Bool × ADCState :=
  calculate_measurement { init_set_of_reads t with reads := vals.map some }

theorem filter_valid_map_some (l : List ℤ) :
    filter_valid_reads (l.map some) = l := by
  induction l with
  | nil => rfl
  | cons x xs ih => simpa [filter_valid_reads, List.filterMap_cons] using ih

/-- C7 (amended): aggregation is idempotent on the two paths that skip the
ratio filter — a single valid value, or zero deviation-stdev: rerunning on
the surviving filtered set succeeds again with the same measurement.  (On
the ratio-filter path this fails; see the counterexample.) -/
theorem c7_amended (s t : ADCState)
    (hpath : (∃ r, filter_valid_reads s.reads = [r]) ∨
             (∃ a b rest, filter_valid_reads s.reads = a :: b :: rest ∧
                sample_var (devs_from_med_of (a :: b :: rest)) = 0)) :
    (calculate_measurement s).1 = true ∧
    (rerun_on_filtered t (calculate_measurement s).2.reads_filtered).1 = true ∧
    (rerun_on_filtered t (calculate_measurement s).2.reads_filtered).2.measurement =
      (calculate_measurement s).2.measurement := by
  rcases hpath with ⟨r, hf⟩ | ⟨a, b, rest, hf, hvar⟩
  · rw [calculate_measurement_single s r hf]
    have hr2 : rerun_on_filtered t [r] =
        (true, { { init_set_of_reads t with reads := [r].map some } with
                   reads_filtered := [r], measurement := some ((r : ℚ)) }) := by
      unfold rerun_on_filtered
      exact calculate_measurement_single _ r (filter_valid_map_some [r])
    exact ⟨rfl, by rw [hr2], by rw [hr2]⟩
  · rw [calculate_measurement_cons2 s a b rest hf]
    obtain ⟨h1, h2, _, _, h5, _⟩ := calc_stats_var_zero s (a :: b :: rest) hvar
    have hstep : rerun_on_filtered t (calc_stats s (a :: b :: rest)).2.reads_filtered =
        calc_stats { init_set_of_reads t with reads := (a :: b :: rest).map some }
          (a :: b :: rest) := by
      rw [h5]
      unfold rerun_on_filtered
      exact calculate_measurement_cons2 _ a b rest (filter_valid_map_some (a :: b :: rest))
    obtain ⟨g1, g2, _, _, _, _⟩ :=
      calc_stats_var_zero { init_set_of_reads t with reads := (a :: b :: rest).map some }
        (a :: b :: rest) hvar
    exact ⟨h1, by rw [hstep]; exact g1, by rw [hstep, g2, h2]⟩

/-- C7 witness: the idempotence law applied to the single-value batch
[7]. -/
theorem c7_witness :
    (calculate_measurement { ADC_init 3 with reads := [some 7] }).1 = true ∧
    (rerun_on_filtered (ADC_init 0)
      (calculate_measurement { ADC_init 3 with reads := [some 7] }).2.reads_filtered).1 = true ∧
    (rerun_on_filtered (ADC_init 0)
      (calculate_measurement { ADC_init 3 with reads := [some 7] }).2.reads_filtered).2.measurement =
      (calculate_measurement { ADC_init 3 with reads := [some 7] }).2.measurement :=
  c7_amended { ADC_init 3 with reads := [some 7] } (ADC_init 0) (Or.inl ⟨7, by decide⟩)

/-- Batch [0, 0, 0, 0, 50, 150]: the ratio filter drops 150 (ratio² =
135/22 > 4) but keeps 50 (15/22 ≤ 4). -/
def batch_refilter : ADCState :=
  { ADC_init 5 with reads := [some 0, some 0, some 0, some 0, some 50, some 150] }

theorem br_filter :
    filter_valid_reads batch_refilter.reads = [0, 0, 0, 0, 50, 150] := by
  decide

theorem br_med : pymedian [0, 0, 0, 0, 50, 150] = 0 := by
  norm_num [pymedian, List.insertionSort, List.orderedInsert]

theorem br_devs :
    devs_from_med_of [0, 0, 0, 0, 50, 150] = [0, 0, 0, 0, 50, 150] := by
  norm_num [devs_from_med_of, br_med]

theorem br_var : sample_var ([0, 0, 0, 0, 50, 150] : List ℚ) = 11000 / 3 := by
  norm_num [sample_var, mean_q]

theorem br_ratios :
    List.map (fun d : ℚ => d ^ 2 / (11000 / 3)) [0, 0, 0, 0, 50, 150] =
      [0, 0, 0, 0, 15 / 22, 135 / 22] := by
  norm_num

theorem br_kept :
    List.filterMap
        (fun p : ℤ × ℚ =>
          if p.2 ≤ max_number_of_stdev_from_med ^ 2 then some p.1 else Option.none)
        [(0, 0), (0, 0), (0, 0), (0, 0), (50, 15 / 22), (150, 135 / 22)] =
      [0, 0, 0, 0, 50] := by
  norm_num [List.filterMap_cons, max_number_of_stdev_from_med]

theorem br_first :
    (calculate_measurement batch_refilter).1 = true ∧
    (calculate_measurement batch_refilter).2.measurement = some 10 ∧
    (calculate_measurement batch_refilter).2.reads_filtered = [0, 0, 0, 0, 50] := by
  rw [calculate_measurement_cons2 batch_refilter 0 0 [0, 0, 50, 150] br_filter]
  rw [calc_stats_ratio_branch _ _ (by rw [br_devs, br_var]; norm_num [max_stdev])
        (by rw [br_devs, br_var]; norm_num)]
  rw [br_devs, br_var, br_med, br_ratios]
  simp only [apply_ratio_filter]
  rw [show ([0, 0, 0, 0, 50, 150] : List ℤ).zip
        ([0, 0, 0, 0, 15 / 22, 135 / 22] : List ℚ) =
        [(0, 0), (0, 0), (0, 0), (0, 0), (50, 15 / 22), (150, 135 / 22)] from rfl]
  rw [br_kept]
  refine ⟨rfl, ?_, rfl⟩
  show some (mean_q (([0, 0, 0, 0, 50] : List ℤ).map (fun r => (r : ℚ)))) = some 10
  norm_num [mean_q]

theorem br2_med : pymedian [0, 0, 0, 0, 50] = 0 := by
  norm_num [pymedian, List.insertionSort, List.orderedInsert]

theorem br2_devs :
    devs_from_med_of [0, 0, 0, 0, 50] = [0, 0, 0, 0, 50] := by
  norm_num [devs_from_med_of, br2_med]

theorem br2_var : sample_var ([0, 0, 0, 0, 50] : List ℚ) = 500 := by
  norm_num [sample_var, mean_q]

theorem br2_ratios :
    List.map (fun d : ℚ => d ^ 2 / 500) [0, 0, 0, 0, 50] = [0, 0, 0, 0, 5] := by
  norm_num

theorem br2_kept :
    List.filterMap
        (fun p : ℤ × ℚ =>
          if p.2 ≤ max_number_of_stdev_from_med ^ 2 then some p.1 else Option.none)
        [(0, 0), (0, 0), (0, 0), (0, 0), (50, 5)] =
      [0, 0, 0, 0] := by
  norm_num [List.filterMap_cons, max_number_of_stdev_from_med]

theorem br_second :
    (rerun_on_filtered (ADC_init 5) [0, 0, 0, 0, 50]).2.measurement = some 0 := by
  unfold rerun_on_filtered
  rw [calculate_measurement_cons2 _ 0 0 [0, 0, 50] (filter_valid_map_some [0, 0, 0, 0, 50])]
  rw [calc_stats_ratio_branch _ _ (by rw [br2_devs, br2_var]; norm_num [max_stdev])
        (by rw [br2_devs, br2_var]; norm_num)]
  rw [br2_devs, br2_var, br2_med, br2_ratios]
  simp only [apply_ratio_filter]
  rw [show ([0, 0, 0, 0, 50] : List ℤ).zip ([0, 0, 0, 0, 5] : List ℚ) =
        [(0, 0), (0, 0), (0, 0), (0, 0), (50, 5)] from rfl]
  rw [br2_kept]
  show some (mean_q (([0, 0, 0, 0] : List ℤ).map (fun r => (r : ℚ)))) = some 0
  norm_num [mean_q]

/-- C7 (counterexample): aggregation on [0, 0, 0, 0, 50, 150] succeeds
with measurement 10 and surviving set [0, 0, 0, 0, 50], but rerunning
aggregation on those survivors yields measurement 0 — the single-pass
filter is not idempotent. -/
theorem c7_counterexample :
    (calculate_measurement batch_refilter).1 = true ∧
    (rerun_on_filtered (ADC_init 5)
        (calculate_measurement batch_refilter).2.reads_filtered).2.measurement ≠
      (calculate_measurement batch_refilter).2.measurement := by
  obtain ⟨h1, h2, h3⟩ := br_first
  refine ⟨h1, ?_⟩
  rw [h2, h3, br_second]
  simp only [ne_eq, Option.some.injEq]
  norm_num

/-- C10: with a single data pin (`single_adc`, so `read_raw` returns a
scalar — a float or `None`), every `zero()` call reaches the membership
test `None in readings` with a non-list value and raises TypeError,
whatever the reads return and whatever the retry limit. -/
theorem c10_zero_single_adc_type_error (ms : ℕ → List (Option ℚ)) (retry_limit : ℕ)
    (hne : ∀ n, ms n ≠ []) :
    zero_model (fun n => read_raw_return true (ms n)) retry_limit =
      ZeroOutcome.typeError := by
  cases retry_limit with
  | zero => rfl
  | succ fuel =>
    show zero_loop _ 0 PyVal.none (fuel + 1) = ZeroOutcome.typeError
    cases h : ms 0 with
    | nil => exact absurd h (hne 0)
    | cons m rest =>
      cases m with
      | none => simp [zero_loop, pyIsNone, read_raw_return, h, pyNoneIn]
      | some q => simp [zero_loop, pyIsNone, read_raw_return, h, pyNoneIn]

/-- C10 witness: a single-ADC controller whose one device always fails its
reads still raises TypeError (not the zeroing Exception). -/
theorem c10_witness :
    zero_model (fun _ => read_raw_return true [Option.none]) 10 =
      ZeroOutcome.typeError :=
  c10_zero_single_adc_type_error (fun _ => [Option.none]) 10
    (fun _ => List.cons_ne_nil Option.none [])

theorem poll_once_map_field {β : Type} (f : ADCState → β)
    (hf : ∀ a b, f (is_ready_update a b) = f a)
    (env : HXEnv) (i : ℕ) (adcs : List ADCState) :
    (poll_once env i adcs).map f = adcs.map f := by
  unfold poll_once
  rw [List.map_map]
  exact List.map_congr_left (fun a _ => hf a _)

/-- The readiness poll loop touches nothing but the `ready` flags. -/
theorem prepare_poll_map_field {β : Type} (f : ADCState → β)
    (hf : ∀ a b, f (is_ready_update a b) = f a) (env : HXEnv) :
    ∀ fuel i adcs, ((prepare_poll env i fuel adcs).2).map f = adcs.map f := by
  intro fuel
  induction fuel with
  | zero => intro i adcs; rfl
  | succ n ih =>
    intro i adcs
    simp only [prepare_poll]
    by_cases h : (poll_once env i adcs).all (fun a => a.ready)
    · rw [if_pos h]
      exact poll_once_map_field f hf env i adcs
    · rw [if_neg h]
      rw [ih (i + 1) (poll_once env i adcs)]
      exact poll_once_map_field f hf env i adcs

theorem all_ready_false_of_elem (l : List ADCState) (d : ℕ) (a : ADCState)
    (h : l[d]? = some a) (hr : a.ready = false) :
    l.all (fun x => x.ready) = false := by
  cases hb : l.all (fun x => x.ready) with
  | false => rfl
  | true =>
    exfalso
    obtain ⟨hlt, rfl⟩ := List.getElem?_eq_some.mp h
    have := List.all_eq_true.mp hb _ (List.getElem_mem hlt)
    rw [hr] at this
    exact Bool.false_ne_true this

/-- With a device whose line never reads 0 (and which starts not ready),
the poll loop never breaks: it runs through all its fuel and that device
is still not ready at the end. -/
theorem prepare_poll_never_ready (env : HXEnv) (p : ℕ)
    (hline : ∀ i, env.pollBit p i ≠ 0) :
    ∀ (fuel i : ℕ) (adcs : List ADCState) (d : ℕ) (a : ADCState),
      adcs[d]? = some a → a.ready = false → a.dout_pin = p →
      (prepare_poll env i fuel adcs).1 = i + fuel ∧
      ∃ a2, ((prepare_poll env i fuel adcs).2)[d]? = some a2 ∧ a2.ready = false := by
  intro fuel
  induction fuel with
  | zero => intro i adcs d a hd hr _; exact ⟨rfl, a, hd, hr⟩
  | succ n ih =>
    intro i adcs d a hd hr hp
    have hd1 : (poll_once env i adcs)[d]? =
        some (is_ready_update a (env.pollBit a.dout_pin i)) := by
      unfold poll_once
      rw [List.getElem?_map, hd]
      rfl
    have hr1 : (is_ready_update a (env.pollBit a.dout_pin i)).ready = false := by
      unfold is_ready_update
      rw [if_neg (by rw [hr]; exact Bool.false_ne_true)]
      simp [hp, hline i]
    have hp1 : (is_ready_update a (env.pollBit a.dout_pin i)).dout_pin = p := by
      unfold is_ready_update
      split
      · exact hp
      · exact hp
    have hall : (poll_once env i adcs).all (fun x => x.ready) = false :=
      all_ready_false_of_elem _ d _ hd1 hr1
    simp only [prepare_poll]
    rw [hall]
    simp only [Bool.false_eq_true, if_false]
    obtain ⟨hc, a2, hd2, hr2⟩ := ih (i + 1) (poll_once env i adcs) d _ hd1 hr1 hp1
    exact ⟨by rw [hc]; omega, a2, hd2, hr2⟩

/-- C3: with `all_or_nothing` and a device whose data line never reads 0,
a read cycle polls readiness exactly 20 times, fails, issues no clock
pulse, and shifts no bit into any device: every accumulator is 0 (the
per-cycle reset value) and every batch history is untouched. -/
theorem c3_never_ready_aborts (env : HXEnv) (hx : HXState) (d : ℕ) (a : ADCState)
    (haon : hx.all_or_nothing = true)
    (hd : hx.adcs[d]? = some a)
    (hline : ∀ i, env.pollBit a.dout_pin i ≠ 0) :
    (hx_read env hx).1 = false ∧
    (hx_read env hx).2.1 = 20 ∧
    (hx_read env hx).2.2.1 = 0 ∧
    (hx_read env hx).2.2.2.adcs.map (fun x => x.current_raw_read) =
      hx.adcs.map (fun _ => 0) ∧
    (hx_read env hx).2.2.2.adcs.map (fun x => x.raw_reads) =
      hx.adcs.map (fun x => x.raw_reads) ∧
    (hx_read env hx).2.2.2.adcs.map (fun x => x.reads) =
      hx.adcs.map (fun x => x.reads) := by
  have hd0 : (hx.adcs.map init_raw_read)[d]? = some (init_raw_read a) := by
    rw [List.getElem?_map, hd]
    rfl
  obtain ⟨hcount, a2, hd2, hr2⟩ :=
    prepare_poll_never_ready env a.dout_pin hline 20 0 (hx.adcs.map init_raw_read)
      d (init_raw_read a) hd0 rfl rfl
  have hready : (prepare_poll env 0 20 (hx.adcs.map init_raw_read)).2.all
      (fun x => x.ready) = false :=
    all_ready_false_of_elem _ d _ hd2 hr2
  simp only [hx_read, prepare_to_read]
  rw [hready, haon]
  simp only [Bool.not_false, Bool.true_and, if_true]
  refine ⟨by trivial, by rw [hcount], by trivial, ?_, ?_, ?_⟩
  · rw [prepare_poll_map_field (fun x => x.current_raw_read)
        (fun x b => by unfold is_ready_update; split <;> rfl) env 20 0]
    rw [List.map_map]
    rfl
  · rw [prepare_poll_map_field (fun x => x.raw_reads)
        (fun x b => by unfold is_ready_update; split <;> rfl) env 20 0]
    rw [List.map_map]
    rfl
  · rw [prepare_poll_map_field (fun x => x.reads)
        (fun x b => by unfold is_ready_update; split <;> rfl) env 20 0]
    rw [List.map_map]
    rfl

/-- An environment in which every data line always reads 1 (never ready)
and every SCK pulse meets its timing budget. -/
def env_never_ready : HXEnv :=
  { pollBit := fun _ _ => 1, dataBit := fun _ _ => 0, pulseOk := fun _ => true }

/-- A single-device controller on channel A with gain 128 and
`all_or_nothing = true`. -/
def hx_one : HXState :=
  { sck_pin := 2, channel_A_gain := 128, channel_select := 'A',
    all_or_nothing := true, single_adc := true, adcs := [ADC_init 5] }

/-- C3 witness: the abort law evaluated on a one-device controller whose
line never reads 0. -/
theorem c3_witness :
    (hx_read env_never_ready hx_one).1 = false ∧
    (hx_read env_never_ready hx_one).2.1 = 20 ∧
    (hx_read env_never_ready hx_one).2.2.1 = 0 ∧
    (hx_read env_never_ready hx_one).2.2.2.adcs.map (fun x => x.current_raw_read) =
      hx_one.adcs.map (fun _ => 0) ∧
    (hx_read env_never_ready hx_one).2.2.2.adcs.map (fun x => x.raw_reads) =
      hx_one.adcs.map (fun x => x.raw_reads) ∧
    (hx_read env_never_ready hx_one).2.2.2.adcs.map (fun x => x.reads) =
      hx_one.adcs.map (fun x => x.reads) :=
  c3_never_ready_aborts env_never_ready hx_one 0 (ADC_init 5) rfl rfl
    (fun _ => Nat.one_ne_zero)

/-- When every pulse meets the timing budget, the 24-bit loop performs all
its pulses and succeeds. -/
theorem read_bits_loop_all_ok (env : HXEnv) (hok : ∀ j, env.pulseOk j = true) :
    ∀ (fuel k pulses : ℕ) (adcs : List ADCState),
      (read_bits_loop env k fuel pulses adcs).1 = true ∧
      (read_bits_loop env k fuel pulses adcs).2.1 = pulses + fuel := by
  intro fuel
  induction fuel with
  | zero => intro k pulses adcs; exact ⟨rfl, rfl⟩
  | succ n ih =>
    intro k pulses adcs
    simp only [read_bits_loop, hok pulses, if_true]
    refine ⟨(ih (k + 1) (pulses + 1) (shift_all env k adcs)).1, ?_⟩
    rw [(ih (k + 1) (pulses + 1) (shift_all env k adcs)).2]
    omega

/-- Same for the gain-configuration pulses. -/
theorem write_gain_loop_all_ok (env : HXEnv) (hok : ∀ j, env.pulseOk j = true) :
    ∀ fuel pulses : ℕ,
      (write_gain_loop env fuel pulses).1 = true ∧
      (write_gain_loop env fuel pulses).2 = pulses + fuel := by
  intro fuel
  induction fuel with
  | zero => intro pulses; exact ⟨rfl, rfl⟩
  | succ n ih =>
    intro pulses
    simp only [write_gain_loop, hok pulses, if_true]
    refine ⟨(ih (pulses + 1)).1, ?_⟩
    rw [(ih (pulses + 1)).2]
    omega

/-- C4 (amended): a read cycle that is not aborted — the readiness gate
passes (all devices ready, or `all_or_nothing` is false) and every pulse
meets the 60 µs budget — issues exactly 24 + extra SCK pulses, with
extra = 1 for (A, 128), 3 for (A, 64), and 2 for channel B, and succeeds.
(A cycle aborted at the readiness gate issues 0 pulses; see the
counterexample.) -/
theorem c4_amended_pulse_count (env : HXEnv) (hx : HXState)
    (hok : ∀ j, env.pulseOk j = true)
    (hgate : (prepare_to_read env (hx.adcs.map init_raw_read)).1 = true ∨
             hx.all_or_nothing = false) :
    (hx_read env hx).1 = true ∧
    (hx_read env hx).2.2.1 = 24 + num_pulses hx.channel_select hx.channel_A_gain := by
  have hcond : (!(prepare_to_read env (hx.adcs.map init_raw_read)).1 &&
      hx.all_or_nothing) = false := by
    rcases hgate with h | h <;> simp [h]
  obtain ⟨hb1, hb2⟩ :=
    read_bits_loop_all_ok env hok 24 0 0
      (prepare_to_read env (hx.adcs.map init_raw_read)).2.2
  obtain ⟨hw1, hw2⟩ :=
    write_gain_loop_all_ok env hok (num_pulses hx.channel_select hx.channel_A_gain)
      (read_bits_loop env 0 24 0
        (prepare_to_read env (hx.adcs.map init_raw_read)).2.2).2.1
  simp only [hx_read, hcond, Bool.false_eq_true, if_false, hb1, Bool.not_true, hw1]
  rw [hw2, hb2]
  exact ⟨trivial, by omega⟩

/-- C4 (counterexample): a cycle aborted at the readiness gate
(`all_or_nothing` with a never-ready device) issues 0 SCK pulses, not
24 + extra — the "always" in the claim fails for aborted cycles. -/
theorem c4_counterexample :
    (hx_read env_never_ready hx_one).2.2.1 = 0 ∧
    (hx_read env_never_ready hx_one).2.2.1 ≠
      24 + num_pulses hx_one.channel_select hx_one.channel_A_gain := by
  constructor
  · decide
  · decide

/-- An environment in which every data line always reads 0 (immediately
ready) and every pulse meets its timing budget. -/
def env_all_ready : HXEnv :=
  { pollBit := fun _ _ => 0, dataBit := fun _ _ => 0, pulseOk := fun _ => true }

/-- C4 witness: on a completing cycle of the (A, 128) controller the pulse
count is exactly 24 + 1. -/
theorem c4_witness :
    (hx_read env_all_ready hx_one).1 = true ∧
    (hx_read env_all_ready hx_one).2.2.1 =
      24 + num_pulses hx_one.channel_select hx_one.channel_A_gain :=
  c4_amended_pulse_count env_all_ready hx_one (fun _ => rfl) (Or.inl (by decide))
